import Mathlib

/-!
Shallow embedding of the decision-and-utterance governor of the
aibot_minecraft repository: the survival progression director
(src/survival_director.js, bundled in src/chat.js), the speech throttle
(src/speech_manager.js) and the planner's follow/social/cooldown logic
(src/planner.js).  Timestamps are integers (milliseconds), JS numbers
carrying energy/chance values are rationals, and configuration fields
that may be absent are `Option` values with the source's fallback
semantics (`||` treats 0 as absent, `Number.isFinite(...) ? ... : d`
becomes `Option.getD`).  Randomness (`Math.random()`) is passed in as an
explicit parameter wherever the source consults it.
-/

namespace AiBot

/-- JS `name.endsWith(suffix)` modelled over the underlying character lists. -/
def strEndsWith (s suffix : String) : Bool :=
  suffix.data.isSuffixOf s.data

/-- JS `value || default` for optional integer config fields: absent and 0 both
fall back to the default. -/
def jsOr (v : Option Int) (d : Int) : Int :=
  match v with
  | none => d
  | some x => if x == 0 then d else x

/-- The `clamp` helper of speech_manager.js: `Math.max(min, Math.min(max, value))`. -/
def clamp (value lo hi : ℚ) : ℚ := max lo (min hi value)

/-- The `config.behavior` fields consulted by the embedded components. -/
structure Behavior where
  speechEnergyRecoverPer10s : Option ℚ := none
  speechEnergyNightPenalty : Option ℚ := none
  speechEnergyDecayOnDirect : Option ℚ := none
  speechEnergyDecayOnEvent : Option ℚ := none
  speechEnergyDecayOnTalk : Option ℚ := none
  autoChatHistoryMs : Option Int := none
  autoChatHistorySize : Option Int := none
  speechBurstWindowMs : Option Int := none
  speechBurstMax : Option Int := none
  speechDirectBurstMax : Option Int := none
  autoChatCooldownMs : Option Int := none
  perPlayerChatCooldown : Option Int := none
  speechPulseChanceFocused : Option ℚ := none
  speechPulseChanceNeutral : Option ℚ := none
  speechPulseChanceChatty : Option ℚ := none
  socialRoundInterval : Option Int := none
  socialMaxDistance : Option Int := none
  followGlobalCooldownMs : Option Int := none
  followStickMs : Option Int := none
  chatCooldown : Option Int := none
  autonomousDecisionCooldownMs : Option Int := none
  survivalStepCooldownMs : Option Int := none
  survivalActionCooldownMs : Option Int := none

/-- A configuration with every optional field absent (all source defaults apply). -/
def cfgDefault : Behavior := {}

/-! ## Survival director (src/survival_director.js) -/

/-- One inventory stack: item name, stack count, and the item's food value
(`item.food`, 0 for inedible items). -/
structure InvItem where
  name : String
  count : Nat
  food : Nat
  deriving DecidableEq, Repr

/-- `countItem`: total count of the named item in the inventory.  The source
resolves the name through `bot.registry.itemsByName` and then counts by item
id; since only registry items can sit in an inventory this is the same as
counting inventory stacks with that name (`!name` yields 0 as in the source). -/
def countItem (inv : List InvItem) (name : String) : Nat :=
  if name == "" then 0
  else (inv.filter (fun i => i.name == name)).foldl (fun acc i => acc + i.count) 0

/-- `hasItem`: `countItem(name) > 0`. -/
def hasItem (inv : List InvItem) (name : String) : Bool :=
  decide (countItem inv name > 0)

/-- `countBySuffix`: sum of counts of inventory stacks whose name ends with one
of the given suffixes. -/
def countBySuffix (inv : List InvItem) (suffixes : List String) : Nat :=
  inv.foldl
    (fun total i => if suffixes.any (fun s => strEndsWith i.name s) then total + i.count else total)
    0

/-- `getFoodItem`: among stacks with positive food value, the first one of
maximal food value (the source sorts the filtered list descending by food with
a stable sort and takes element 0). -/
def getFoodItem (inv : List InvItem) : Option InvItem :=
  (inv.filter (fun i => decide (i.food > 0))).foldl
    (fun best i =>
      match best with
      | none => some i
      | some b => if i.food > b.food then some i else some b)
    none

/-- Task descriptors handed to the foreign task layer (`taskManager.startTask`). -/
inductive TaskDescriptor
  | mine (target : String) (amount : Nat)
  | gatherWood (amount : Nat)
  | farm
  deriving DecidableEq, Repr

/-- The single action a survival step performs. -/
inductive SurvivalAction
  | eat (name : String)
  | craftItem (name : String) (count : Nat)
  | startTask (t : TaskDescriptor)
  | useFurnace (inputName : String) (count : Nat)
  deriving DecidableEq, Repr

/-- Mutable timing state of the survival director. -/
structure DirectorState where
  lastStepAt : Int
  lastActionAt : Int
  deriving DecidableEq, Repr

/-- `shouldStep`: step-level cooldown gate; on passing it refreshes
`lastStepAt` (the source mutates before returning true). -/
def shouldStep (cfg : Behavior) (now : Int) (st : DirectorState) : Bool × DirectorState :=
  let cooldownMs := cfg.survivalStepCooldownMs.getD 10000
  if now - st.lastStepAt < cooldownMs then (false, st)
  else (true, { st with lastStepAt := now })

/-- `canAct`: action-level cooldown gate (read-only). -/
def canAct (cfg : Behavior) (now : Int) (st : DirectorState) : Bool :=
  let cooldownMs := cfg.survivalActionCooldownMs.getD 15000
  decide (now - st.lastActionAt ≥ cooldownMs)

/-- `markAct`: records the action timestamp. -/
def markAct (now : Int) (st : DirectorState) : DirectorState :=
  { st with lastActionAt := now }

/-- The priority chain of `SurvivalDirector.step` as a pure choice over the
inventory snapshot: first satisfied branch wins, at most one action. -/
def stepAction (health food : Int) (inv : List InvItem) : Option SurvivalAction :=
  match (if health ≤ 10 ∨ food ≤ 12 then getFoodItem inv else none) with
  | some foodItem => some (.eat foodItem.name)
  | none =>
    let woodCount := countBySuffix inv ["_log", "_wood", "_stem", "_hyphae"]
      + countItem inv "bamboo_block"
    let plankCount := countBySuffix inv ["_planks", "bamboo_planks"]
    let hasCraftingTable := hasItem inv "crafting_table"
    let hasWoodPickaxe := hasItem inv "wooden_pickaxe"
    let hasStonePickaxe := hasItem inv "stone_pickaxe"
    let hasIronPickaxe := hasItem inv "iron_pickaxe"
    if ¬hasCraftingTable ∧ (woodCount > 0 ∨ plankCount > 0) then
      some (.craftItem "crafting_table" 1)
    else if woodCount + plankCount < 12 then
      some (.startTask (.gatherWood 24))
    else if ¬hasWoodPickaxe ∧ plankCount ≥ 3 then
      some (.craftItem "wooden_pickaxe" 1)
    else
      let cobbleCount := countItem inv "cobblestone"
      if hasWoodPickaxe ∧ ¬hasStonePickaxe ∧ cobbleCount < 3 then
        some (.startTask (.mine "stone" 12))
      else if hasWoodPickaxe ∧ ¬hasStonePickaxe ∧ cobbleCount ≥ 3 then
        some (.craftItem "stone_pickaxe" 1)
      else
        let rawIron := countItem inv "raw_iron"
        let ironOre := countItem inv "iron_ore"
        let ironIngot := countItem inv "iron_ingot"
        if hasStonePickaxe ∧ ¬hasIronPickaxe ∧ rawIron + ironOre + ironIngot < 6 then
          some (.startTask (.mine "iron_ore" 6))
        else if rawIron > 0 then
          some (.useFurnace "raw_iron" (min rawIron 8))
        else if ¬hasIronPickaxe ∧ ironIngot ≥ 3 then
          some (.craftItem "iron_pickaxe" 1)
        else if food < 14 ∧ countBySuffix inv ["_seeds"] > 0 then
          some (.startTask .farm)
        else
          none

/-- `SurvivalDirector.step` with its three leading gates (`shouldStep`,
`canAct`, task-manager busy); a fired branch marks the action cooldown. -/
def survivalStep (cfg : Behavior) (now : Int) (busy : Bool) (health food : Int)
    (inv : List InvItem) (st : DirectorState) : Option SurvivalAction × DirectorState :=
  let gate := shouldStep cfg now st
  if ¬gate.1 then (none, gate.2)
  else if ¬canAct cfg now gate.2 then (none, gate.2)
  else if busy then (none, gate.2)
  else
    match stepAction health food inv with
    | some a => (some a, markAct now gate.2)
    | none => (none, gate.2)

/-- C1 snapshot 1: no wood, no planks, no crafting table. -/
def snapWoodless : List InvItem := []

/-- C1 snapshot 2: 6 planks, no crafting table. -/
def snapPlanks : List InvItem := [⟨"oak_planks", 6, 0⟩]

/-- C1 snapshot 3 as literally described: crafting table held, 3 planks, no
wooden pickaxe (all other counts zero). -/
def snapTablePlanks : List InvItem := [⟨"crafting_table", 1, 0⟩, ⟨"oak_planks", 3, 0⟩]

/-- C1 snapshot 3 completed so the wood-threshold branch is skipped: crafting
table, 9 logs and 3 planks, no wooden pickaxe. -/
def snapTablePlanksWood : List InvItem :=
  [⟨"crafting_table", 1, 0⟩, ⟨"oak_log", 9, 0⟩, ⟨"oak_planks", 3, 0⟩]

/-- C1 snapshot 4 completed likewise: crafting table, 12 logs, wooden pickaxe
held, 2 cobblestone, no stone pickaxe. -/
def snapWoodPickCobble : List InvItem :=
  [⟨"crafting_table", 1, 0⟩, ⟨"oak_log", 12, 0⟩, ⟨"wooden_pickaxe", 1, 0⟩,
   ⟨"cobblestone", 2, 0⟩]

/-- C8 snapshot: every pickaxe held (including iron), ample wood, and 2 raw
iron in the inventory. -/
def snapIronPickRawIron : List InvItem :=
  [⟨"crafting_table", 1, 0⟩, ⟨"oak_log", 12, 0⟩, ⟨"wooden_pickaxe", 1, 0⟩,
   ⟨"stone_pickaxe", 1, 0⟩, ⟨"iron_pickaxe", 1, 0⟩, ⟨"raw_iron", 2, 0⟩]

/-- C1 counterexample: on the literal third snapshot of the claim (crafting
table held, planks 3, wood 0) the chain takes the wood-threshold branch and
starts gather_wood(24); it does not craft the wooden pickaxe. -/
theorem survivalSnapshot3_starts_gather_wood :
    stepAction 20 20 snapTablePlanks = some (.startTask (.gatherWood 24)) ∧
      stepAction 20 20 snapTablePlanks ≠ some (.craftItem "wooden_pickaxe" 1) := by
  constructor
  · rfl
  · decide

/-- C1 (amended): with the survival cooldowns elapsed and no task busy, the
gated step returns exactly the pure priority-chain choice of the snapshot (so
repeated invocations on one snapshot always choose the same action), and the
four spec snapshots — the third and fourth completed with enough wood
equivalents (and the crafting table for the fourth) to pass the earlier
branches — produce the four listed actions. -/
theorem survivalStepDeterministic (cfg : Behavior) (now : Int) (st : DirectorState)
    (health food : Int) (inv : List InvItem)
    (hstep : now - st.lastStepAt ≥ cfg.survivalStepCooldownMs.getD 10000)
    (hact : now - st.lastActionAt ≥ cfg.survivalActionCooldownMs.getD 15000) :
    (survivalStep cfg now false health food inv st).1 = stepAction health food inv ∧
      stepAction 20 20 snapWoodless = some (.startTask (.gatherWood 24)) ∧
      stepAction 20 20 snapPlanks = some (.craftItem "crafting_table" 1) ∧
      stepAction 20 20 snapTablePlanksWood = some (.craftItem "wooden_pickaxe" 1) ∧
      stepAction 20 20 snapWoodPickCobble = some (.startTask (.mine "stone" 12)) := by
  refine ⟨?_, by rfl, by rfl, by rfl, by rfl⟩
  have h1 : ¬(now - st.lastStepAt < cfg.survivalStepCooldownMs.getD 10000) := not_lt.mpr hstep
  simp only [survivalStep, shouldStep, if_neg h1]
  have h2 : canAct cfg now { st with lastStepAt := now } = true := by
    simp [canAct, hact]
  simp only [h2]
  cases h : stepAction health food inv <;> simp [h]

/-- C1 witness: concrete instantiation with both cooldowns elapsed. -/
theorem survivalStepDeterministic_witness :
    (survivalStep cfgDefault 100000 false 20 20 snapWoodless ⟨0, 0⟩).1 =
      stepAction 20 20 snapWoodless :=
  (survivalStepDeterministic cfgDefault 100000 ⟨0, 0⟩ 20 20 snapWoodless
    (by decide) (by decide)).1

/-- C8 counterexample: with the iron pickaxe (and every lesser tool) already
held and raw iron in the inventory, the step still smelts — the smelt branch
is not confined to the stone-pickaxe-without-iron-pickaxe branch. -/
theorem survivalSmeltsWithIronPickaxe :
    stepAction 20 20 snapIronPickRawIron = some (.useFurnace "raw_iron" 2) ∧
      hasItem snapIronPickRawIron "iron_pickaxe" = true := by
  constructor
  · rfl
  · decide

/-- C8 (amended): the smelt branch fires for any snapshot that reaches it with
raw iron held, regardless of which pickaxes are held; in particular a snapshot
with all tools including the iron pickaxe, a crafting table, enough wood
equivalents and positive raw iron smelts `min rawIron 8` raw iron. -/
theorem survivalSmeltUnguarded (health food : Int) (inv : List InvItem)
    (hhf : ¬(health ≤ 10 ∨ food ≤ 12))
    (htable : hasItem inv "crafting_table" = true)
    (hwood : ¬(countBySuffix inv ["_log", "_wood", "_stem", "_hyphae"]
      + countItem inv "bamboo_block" + countBySuffix inv ["_planks", "bamboo_planks"] < 12))
    (hwp : hasItem inv "wooden_pickaxe" = true)
    (hsp : hasItem inv "stone_pickaxe" = true)
    (hip : hasItem inv "iron_pickaxe" = true)
    (hraw : countItem inv "raw_iron" > 0) :
    stepAction health food inv = some (.useFurnace "raw_iron" (min (countItem inv "raw_iron") 8)) := by
  simp only [stepAction, if_neg hhf]
  rw [if_neg, if_neg, if_neg, if_neg, if_neg, if_neg, if_pos hraw]
  · simp [hsp, hip]
  · simp [hwp, hsp]
  · simp [hwp, hsp]
  · simp [hwp]
  · exact hwood
  · simp [htable]

/-- C8 witness: the amended theorem applied to the concrete all-tools snapshot. -/
theorem survivalSmeltUnguarded_witness :
    stepAction 20 20 snapIronPickRawIron =
      some (.useFurnace "raw_iron" (min (countItem snapIronPickRawIron "raw_iron") 8)) :=
  survivalSmeltUnguarded 20 20 snapIronPickRawIron (by decide) (by decide) (by decide)
    (by decide) (by decide) (by decide) (by decide)

/-! ## Speech throttle (src/speech_manager.js) -/

/-- Urgency reasons attached to candidate utterances. -/
inductive Reason
  | direct | mention | danger | event | gift | autonomous | pulse | social
  deriving DecidableEq, Repr

/-- `isAutonomousReason`. -/
def isAutonomousReason (r : Reason) : Bool :=
  r == .autonomous || r == .pulse || r == .social

/-- Energy bands returned by `getMode`. -/
inductive SpeechMode
  | focused | neutral | chatty
  deriving DecidableEq, Repr

/-- `getMode` over the current social energy. -/
def getMode (energy : ℚ) : SpeechMode :=
  if energy ≤ 30 then .focused
  else if energy ≥ 70 then .chatty
  else .neutral

/-- Mutable state of the speech manager (the emission queue itself is drained
by a separate cooperative consumer and is not needed for admission). -/
structure SpeechState where
  socialEnergy : ℚ
  lastEnergyUpdateAt : Int
  lastSpokeAt : Int
  nextAutonomousAt : Int
  messageHistory : List (String × Int)
  messageTimestamps : List Int
  lastByPlayer : List (String × Int)
  deriving DecidableEq, Repr

/-- Initial speech state: energy 55, empty histories; `nextAutonomousAt` is
seeded with a randomized interval passed in as `i0`. -/
def initSpeechState (t0 i0 : Int) : SpeechState :=
  { socialEnergy := 55, lastEnergyUpdateAt := t0, lastSpokeAt := 0,
    nextAutonomousAt := t0 + i0, messageHistory := [], messageTimestamps := [],
    lastByPlayer := [] }

/-- `Map.set` on the per-player timestamp map. -/
def mapSet (m : List (String × Int)) (k : String) (v : Int) : List (String × Int) :=
  (k, v) :: m.filter (fun e => e.1 != k)

/-- `this.lastByPlayer.get(player) || 0`. -/
def mapGetD0 (m : List (String × Int)) (k : String) : Int :=
  match m.find? (fun e => e.1 == k) with
  | some e => e.2
  | none => 0

/-- Characters kept by the normalization regex class `[a-z0-9а-яё]` (the text
has already been lowercased when the regex runs). -/
def keepChar (c : Char) : Bool :=
  (decide ('a' ≤ c) && decide (c ≤ 'z')) || (decide ('0' ≤ c) && decide (c ≤ '9'))
    || (decide ('а' ≤ c) && decide (c ≤ 'я')) || c == 'ё'

/-- Replace every maximal run of non-kept characters with a single space
(the `replace(/[^a-z0-9а-яё]+/gi, ' ')` step). -/
def squashRuns : List Char → Bool → List Char
  | [], _ => []
  | c :: rest, inRun =>
    if keepChar c then c :: squashRuns rest false
    else if inRun then squashRuns rest true
    else ' ' :: squashRuns rest true

/-- JS `String.prototype.trim` on the squashed character list (the only
whitespace it can contain is the space character). -/
def trimSpaces (l : List Char) : List Char :=
  ((l.dropWhile (· == ' ')).reverse.dropWhile (· == ' ')).reverse

/-- `normalizeText`: lowercase, collapse non-alphanumeric runs to single
spaces, trim. -/
def normalizeText (text : String) : String :=
  String.mk (trimSpaces (squashRuns (text.data.map Char.toLower) false))

/-- `recoverEnergy`: lazily convert elapsed time into 10s recovery steps,
apply the per-step recovery, and at night subtract the per-step penalty; both
applications clamp to [0,100]. -/
def recoverEnergy (cfg : Behavior) (isDay : Bool) (now : Int) (st : SpeechState) : SpeechState :=
  if now - st.lastEnergyUpdateAt < 10000 then st
  else
    let steps : Int := (now - st.lastEnergyUpdateAt) / 10000
    let recoverPerStep := cfg.speechEnergyRecoverPer10s.getD 2
    let e1 := clamp (st.socialEnergy + (steps : ℚ) * recoverPerStep) 0 100
    let e2 :=
      if ¬isDay then clamp (e1 - (steps : ℚ) * (cfg.speechEnergyNightPenalty.getD 1)) 0 100
      else e1
    { st with socialEnergy := e2, lastEnergyUpdateAt := now }

/-- `isDuplicate`: empty normalized text counts as duplicate; with a positive
history window, age out old entries and look for a normalized match. -/
def isDuplicate (cfg : Behavior) (now : Int) (st : SpeechState) (text : String) :
    Bool × SpeechState :=
  let normalized := normalizeText text
  if normalized == "" then (true, st)
  else
    let historyMs := jsOr cfg.autoChatHistoryMs 0
    if historyMs ≤ 0 then (false, st)
    else
      let hist := st.messageHistory.filter (fun item => decide (now - item.2 ≤ historyMs))
      (hist.any (fun item => item.1 == normalized), { st with messageHistory := hist })

/-- `recordMessage`, run on actual emission: push into duplicate history with
the count cap, update the burst-window timestamp list and per-player time,
reschedule the next autonomous slot (randomized interval passed as
`nextInterval`) for autonomous-class reasons, and apply the reason-dependent
energy decay, clamped to [0,100]. -/
def recordMessage (cfg : Behavior) (now : Int) (st : SpeechState) (text : String)
    (player : Option String) (reason : Reason) (nextInterval : Int) : SpeechState :=
  let normalized := normalizeText text
  let history :=
    if normalized == "" then st.messageHistory
    else
      let pushed := st.messageHistory ++ [(normalized, now)]
      let maxSize := cfg.autoChatHistorySize.getD 20
      if (pushed.length : Int) > maxSize then pushed.drop (pushed.length - maxSize.toNat)
      else pushed
  let burstWindowMs := jsOr cfg.speechBurstWindowMs 20000
  let timestamps := (st.messageTimestamps ++ [now]).filter (fun ts => decide (now - ts ≤ burstWindowMs))
  let byPlayer :=
    match player with
    | some p => mapSet st.lastByPlayer p now
    | none => st.lastByPlayer
  let nextAuto := if isAutonomousReason reason then now + nextInterval else st.nextAutonomousAt
  let decay : ℚ :=
    match reason with
    | .direct => cfg.speechEnergyDecayOnDirect.getD 5
    | .event | .danger | .gift => cfg.speechEnergyDecayOnEvent.getD 4
    | _ => cfg.speechEnergyDecayOnTalk.getD 8
  { st with
    messageHistory := history,
    lastSpokeAt := now,
    messageTimestamps := timestamps,
    lastByPlayer := byPlayer,
    nextAutonomousAt := nextAuto,
    socialEnergy := clamp (st.socialEnergy - decay) 0 100 }

/-- `canBurst`: age out timestamps beyond the burst window and compare the
remaining count with the applicable burst maximum (the higher
`speechDirectBurstMax` for reason `direct`, `speechBurstMax` otherwise). -/
def canBurst (cfg : Behavior) (now : Int) (st : SpeechState) (reason : Reason) :
    Bool × SpeechState :=
  let burstWindowMs := jsOr cfg.speechBurstWindowMs 20000
  let ts := st.messageTimestamps.filter (fun t => decide (now - t ≤ burstWindowMs))
  let maxBurst :=
    if reason == Reason.direct then jsOr cfg.speechDirectBurstMax 6
    else jsOr cfg.speechBurstMax 3
  (decide ((ts.length : Int) < maxBurst), { st with messageTimestamps := ts })

/-- `shouldAllow`: the admission decision.  `nearby` is the number of context
players with an entity (`getNearbyPlayerCount`) and `rand` stands for the
single `Math.random()` draw of the ambient probabilistic gate. -/
def shouldAllow (cfg : Behavior) (now : Int) (nearby : Nat) (rand : ℚ) (st : SpeechState)
    (reason : Reason) (text : String) (player : Option String) : Bool × SpeechState :=
  if text == "" then (false, st)
  else
    let dupStep :=
      if reason != Reason.direct && reason != Reason.mention then isDuplicate cfg now st text
      else (false, st)
    if dupStep.1 then (false, dupStep.2)
    else
      let burstStep :=
        if reason != Reason.direct && reason != Reason.mention then
          canBurst cfg now dupStep.2 reason
        else (true, dupStep.2)
      if ¬burstStep.1 then (false, burstStep.2)
      else
        let st2 := burstStep.2
        if reason == Reason.direct || reason == Reason.mention || reason == Reason.event
            || reason == Reason.danger || reason == Reason.gift then
          (true, st2)
        else if isAutonomousReason reason then
          (decide (st2.nextAutonomousAt ≤ now), st2)
        else
          let cooldownMs := jsOr cfg.autoChatCooldownMs 0
          if cooldownMs > 0 ∧ now - st2.lastSpokeAt < cooldownMs then (false, st2)
          else
            let playerBlocked :=
              match player with
              | some p =>
                let perPlayerCooldown := jsOr cfg.perPlayerChatCooldown 0
                decide (perPlayerCooldown > 0)
                  && decide (now - mapGetD0 st2.lastByPlayer p < perPlayerCooldown)
              | none => false
            if playerBlocked then (false, st2)
            else
              let chance0 : ℚ :=
                match getMode st2.socialEnergy with
                | .focused => cfg.speechPulseChanceFocused.getD (3 / 100)
                | .chatty => cfg.speechPulseChanceChatty.getD (18 / 100)
                | .neutral => cfg.speechPulseChanceNeutral.getD (8 / 100)
              let chance1 := if nearby == 0 then chance0 * (4 / 10) else chance0
              let chance2 := if nearby ≥ 3 then chance1 * (6 / 10) else chance1
              (decide (rand ≤ chance2), st2)

/-- `enqueue(text, {reason, player})`: admission via `shouldAllow`; the
accepted entry is appended to the drain queue (not modelled) with a delay, so
the caller only observes the acceptance flag and the mutated state. -/
def enqueue (cfg : Behavior) (now : Int) (nearby : Nat) (rand : ℚ) (st : SpeechState)
    (text : String) (reason : Reason) (player : Option String) : Bool × SpeechState :=
  shouldAllow cfg now nearby rand st reason text player

/-- Aging out history entries inside `isDuplicate` never touches the
burst-window timestamp list. -/
theorem isDuplicate_timestamps (cfg : Behavior) (now : Int) (st : SpeechState) (text : String) :
    ((isDuplicate cfg now st text).2).messageTimestamps = st.messageTimestamps := by
  dsimp only [isDuplicate]
  split
  · rfl
  · split <;> rfl

/-- For a non-direct reason, `canBurst` refuses once the timestamps inside the
window have reached the ambient burst maximum. -/
theorem canBurst_false (cfg : Behavior) (now : Int) (st : SpeechState) (reason : Reason)
    (hr : (reason == Reason.direct) = false)
    (hcount : ((st.messageTimestamps.filter
        (fun t => decide (now - t ≤ jsOr cfg.speechBurstWindowMs 20000))).length : Int) ≥
      jsOr cfg.speechBurstMax 3) :
    (canBurst cfg now st reason).1 = false := by
  simp only [canBurst, hr, Bool.false_eq_true, if_false, decide_eq_false_iff_not]
  exact not_lt.mpr hcount

/-- A throttle state whose burst window already holds 7 recorded emissions. -/
def stBurst : SpeechState :=
  { socialEnergy := 55, lastEnergyUpdateAt := 0, lastSpokeAt := 0, nextAutonomousAt := 0,
    messageHistory := [], messageTimestamps := [0, 0, 0, 0, 0, 0, 0], lastByPlayer := [] }

/-- C2 counterexample: with 7 emissions in the burst window — beyond even the
higher direct limit of 6 — a direct candidate is still admitted: direct and
mention reasons bypass the burst check entirely instead of being subject to a
separate, higher limit. -/
theorem speechDirectBypassesBurst :
    ((stBurst.messageTimestamps.filter
        (fun t => decide ((0 : Int) - t ≤ jsOr cfgDefault.speechBurstWindowMs 20000))).length : Int)
      ≥ jsOr cfgDefault.speechDirectBurstMax 6 ∧
    (shouldAllow cfgDefault 0 0 0 stBurst .direct "hi" none).1 = true := by
  decide

/-- C2 (amended): once the emissions recorded inside the rolling burst window
have reached the configured ambient burst maximum, every candidate whose
reason is not direct/mention is rejected; direct and mention candidates are
not burst-limited at all — any non-empty direct/mention candidate is admitted
no matter how many emissions the window holds. -/
theorem speechBurstLimit (cfg : Behavior) (now : Int) (nearby : Nat) (rand : ℚ)
    (st : SpeechState) (reason : Reason) (text dtext : String) (player : Option String)
    (r' : Reason)
    (hreason : reason ≠ .direct ∧ reason ≠ .mention)
    (hcount : ((st.messageTimestamps.filter
        (fun t => decide (now - t ≤ jsOr cfg.speechBurstWindowMs 20000))).length : Int) ≥
      jsOr cfg.speechBurstMax 3)
    (hr' : r' = .direct ∨ r' = .mention) (hdt : dtext ≠ "") :
    (shouldAllow cfg now nearby rand st reason text player).1 = false ∧
      (shouldAllow cfg now nearby rand st r' dtext player).1 = true := by
  have hdt' : (dtext == "") = false := beq_eq_false_iff_ne.mpr hdt
  constructor
  · by_cases ht : (text == "") = true
    · simp [shouldAllow, ht]
    · have ht' : (text == "") = false := eq_false_of_ne_true ht
      have hg : (reason != Reason.direct && reason != Reason.mention) = true := by
        simp only [Bool.and_eq_true, bne_iff_ne]
        exact hreason
      have hrd : (reason == Reason.direct) = false := by
        simpa [beq_iff_eq] using hreason.1
      simp only [shouldAllow, ht', Bool.false_eq_true, if_false, hg, if_true]
      by_cases hdup : (isDuplicate cfg now st text).1 = true
      · simp [hdup]
      · have hdup' : (isDuplicate cfg now st text).1 = false := eq_false_of_ne_true hdup
        have hburst : (canBurst cfg now (isDuplicate cfg now st text).2 reason).1 = false := by
          apply canBurst_false cfg now _ reason hrd
          rw [isDuplicate_timestamps]
          exact hcount
        simp [hdup', hburst]
  · rcases hr' with h | h <;> subst h <;> simp [shouldAllow, hdt']

/-- C2 witness: concrete full-window state; an autonomous candidate is refused
and a direct one admitted. -/
theorem speechBurstLimit_witness :
    (shouldAllow cfgDefault 0 0 0 stBurst .autonomous "hello" none).1 = false ∧
      (shouldAllow cfgDefault 0 0 0 stBurst .direct "hi" none).1 = true :=
  speechBurstLimit cfgDefault 0 0 0 stBurst .autonomous "hello" "hi" none .direct
    (by decide) (by decide) (Or.inl rfl) (by decide)

/-- With a positive history window, a history entry inside the window whose
normalized text matches the candidate makes `isDuplicate` report true. -/
theorem isDuplicate_true_of_mem (cfg : Behavior) (now : Int) (st : SpeechState) (text : String)
    (entry : String × Int)
    (hms : jsOr cfg.autoChatHistoryMs 0 > 0)
    (hmem : entry ∈ st.messageHistory)
    (hage : now - entry.2 ≤ jsOr cfg.autoChatHistoryMs 0)
    (hmatch : entry.1 = normalizeText text) :
    (isDuplicate cfg now st text).1 = true := by
  unfold isDuplicate
  by_cases hn : (normalizeText text == "") = true
  · simp [hn]
  · have hn' : (normalizeText text == "") = false := eq_false_of_ne_true hn
    simp only [hn', Bool.false_eq_true, if_false, if_neg (not_le.mpr hms)]
    simp only [List.any_eq_true]
    exact ⟨entry, List.mem_filter.mpr ⟨hmem, by simpa using hage⟩,
      by rw [hmatch]; exact beq_self_eq_true _⟩

/-- C6: a candidate whose normalized text matches a history entry inside the
configured duplicate window is rejected for every reason except direct and
mention, while any non-empty direct/mention candidate skips the duplicate
check and is admitted. -/
theorem duplicateSuppression (cfg : Behavior) (now : Int) (nearby : Nat) (rand : ℚ)
    (st : SpeechState) (reason : Reason) (text dtext : String) (player : Option String)
    (entry : String × Int) (r' : Reason)
    (hreason : reason ≠ .direct ∧ reason ≠ .mention)
    (hms : jsOr cfg.autoChatHistoryMs 0 > 0)
    (hmem : entry ∈ st.messageHistory)
    (hage : now - entry.2 ≤ jsOr cfg.autoChatHistoryMs 0)
    (hmatch : entry.1 = normalizeText text)
    (hr' : r' = .direct ∨ r' = .mention) (hdt : dtext ≠ "") :
    (shouldAllow cfg now nearby rand st reason text player).1 = false ∧
      (shouldAllow cfg now nearby rand st r' dtext player).1 = true := by
  have hdt' : (dtext == "") = false := beq_eq_false_iff_ne.mpr hdt
  constructor
  · by_cases ht : (text == "") = true
    · simp [shouldAllow, ht]
    · have ht' : (text == "") = false := eq_false_of_ne_true ht
      have hg : (reason != Reason.direct && reason != Reason.mention) = true := by
        simp only [Bool.and_eq_true, bne_iff_ne]
        exact hreason
      have hdup : (isDuplicate cfg now st text).1 = true :=
        isDuplicate_true_of_mem cfg now st text entry hms hmem hage hmatch
      simp [shouldAllow, ht', hg, hdup]
  · rcases hr' with h | h <;> subst h <;> simp [shouldAllow, hdt']

/-- A throttle state that recently emitted the normalized text "privet". -/
def stDup : SpeechState :=
  { socialEnergy := 55, lastEnergyUpdateAt := 0, lastSpokeAt := 0, nextAutonomousAt := 0,
    messageHistory := [("privet", 0)], messageTimestamps := [], lastByPlayer := [] }

/-- Configuration with a one-minute duplicate history window. -/
def cfgDupWindow : Behavior := { cfgDefault with autoChatHistoryMs := some 60000 }

/-- C6 witness: the candidate "Privet!" normalizes to the stored "privet" and
is refused for a social reason, while a direct candidate is admitted. -/
theorem duplicateSuppression_witness :
    (shouldAllow cfgDupWindow 5 0 0 stDup .social "Privet!" none).1 = false ∧
      (shouldAllow cfgDupWindow 5 0 0 stDup .direct "hi" none).1 = true :=
  duplicateSuppression cfgDupWindow 5 0 0 stDup .social "Privet!" "hi" none ("privet", 0)
    .direct (by decide) (by decide) (by decide) (by decide) (by decide) (Or.inl rfl) (by decide)

/-- One energy-relevant operation of the speech manager: a lazy recovery pass
or an emission decay, each carrying the configuration amounts and ambient
inputs it reads. -/
inductive EnergyOp
  | recover (isDay : Bool) (now : Int) (recoverPer10s nightPenalty : Option ℚ)
  | record (now : Int) (text : String) (player : Option String) (reason : Reason)
      (nextInterval : Int) (decayOnDirect decayOnEvent decayOnTalk : Option ℚ)

/-- Run one energy operation through the corresponding source routine. -/
def applyEnergyOp (st : SpeechState) : EnergyOp → SpeechState
  | .recover isDay now r p =>
    recoverEnergy
      { cfgDefault with speechEnergyRecoverPer10s := r, speechEnergyNightPenalty := p }
      isDay now st
  | .record now text player reason ni dd de dt =>
    recordMessage
      { cfgDefault with
          speechEnergyDecayOnDirect := dd
          speechEnergyDecayOnEvent := de
          speechEnergyDecayOnTalk := dt }
      now st text player reason ni

/-- The clamp helper always lands in [0,100]. -/
theorem clamp_mem_Icc (v : ℚ) : 0 ≤ clamp v 0 100 ∧ clamp v 0 100 ≤ 100 := by
  refine ⟨le_max_left _ _, max_le (by norm_num) (min_le_left _ _)⟩

/-- Every single energy operation preserves membership of the energy in
[0,100]. -/
theorem applyEnergyOp_bounds (st : SpeechState)
    (h : 0 ≤ st.socialEnergy ∧ st.socialEnergy ≤ 100) (op : EnergyOp) :
    0 ≤ (applyEnergyOp st op).socialEnergy ∧ (applyEnergyOp st op).socialEnergy ≤ 100 := by
  cases op with
  | recover isDay now r p =>
    dsimp only [applyEnergyOp, recoverEnergy]
    split
    · exact h
    · constructor
      · split
        · exact (clamp_mem_Icc _).1
        · exact (clamp_mem_Icc _).1
      · split
        · exact (clamp_mem_Icc _).2
        · exact (clamp_mem_Icc _).2
  | record now text player reason ni dd de dt =>
    dsimp only [applyEnergyOp, recordMessage]
    exact clamp_mem_Icc _

/-- C5: starting from the initial state, after any sequence of recovery passes
and emission decays — arbitrary elapsed times, day/night states, configured
recovery, night-penalty and decay amounts, and utterance reasons — the social
energy is within [0,100]. -/
theorem speechEnergyClamped (t0 i0 : Int) (ops : List EnergyOp) :
    0 ≤ (ops.foldl applyEnergyOp (initSpeechState t0 i0)).socialEnergy ∧
      (ops.foldl applyEnergyOp (initSpeechState t0 i0)).socialEnergy ≤ 100 := by
  have run : ∀ (l : List EnergyOp) (st : SpeechState),
      0 ≤ st.socialEnergy ∧ st.socialEnergy ≤ 100 →
      0 ≤ (l.foldl applyEnergyOp st).socialEnergy ∧
        (l.foldl applyEnergyOp st).socialEnergy ≤ 100 := by
    intro l
    induction l with
    | nil => exact fun st h => h
    | cons op rest ih =>
      intro st h
      exact ih (applyEnergyOp st op) (applyEnergyOp_bounds st h op)
  refine run ops (initSpeechState t0 i0) ?_
  exact ⟨by norm_num [initSpeechState], by norm_num [initSpeechState]⟩

/-! ## Planner follow admission and cooldown gates (src/planner.js) -/

/-- A player as reported by a perception scan. -/
structure ScanPlayer where
  name : String
  distance : Int
  hasEntity : Bool
  deriving DecidableEq, Repr

/-- `isTargetVisible`: the target appears in the last scan with an entity. -/
def isTargetVisible (scan : List ScanPlayer) (name : String) : Bool :=
  name != "" && scan.any (fun p => p.name == name && p.hasEntity)

/-- The planner's follow state. -/
structure FollowState where
  target : Option String
  since : Int
  stickUntil : Int
  lastAny : Int
  deriving DecidableEq, Repr

/-- `canFollowTarget`: follow admission — global cooldown since any follow
attempt, stickiness of a different still-visible target, and a moving-toward-
a-different-target check. -/
def canFollowTarget (cfg : Behavior) (now : Int) (scan : List ScanPlayer) (isMoving : Bool)
    (fs : FollowState) (name : String) : Bool :=
  let globalCooldown := cfg.followGlobalCooldownMs.getD 30000
  if globalCooldown > 0 ∧ now - fs.lastAny < globalCooldown then false
  else
    let stickBlocked :=
      match fs.target with
      | some t => name != "" && t != name && isTargetVisible scan t && decide (now < fs.stickUntil)
      | none => false
    if stickBlocked then false
    else
      let movingBlocked :=
        isMoving &&
          match fs.target with
          | some t => name != "" && name != t
          | none => false
      if movingBlocked then false else true

/-- `markFollow`: refresh `lastAny` unconditionally; with a non-empty name
also set the target and its stick window. -/
def markFollow (cfg : Behavior) (now : Int) (fs : FollowState) (name : String) : FollowState :=
  let stickMs := cfg.followStickMs.getD 60000
  let fs1 := { fs with lastAny := now }
  if name != "" then { fs1 with target := some name, since := now, stickUntil := now + stickMs }
  else fs1

/-- C3 counterexample: immediately after a successful follow admission of "T",
a follow request naming the very same target "T" is refused — the global
follow cooldown blocks re-admission, so the same target is not always
admitted. -/
theorem sameTargetRefollowBlocked :
    canFollowTarget cfgDefault 1001 [⟨"T", 1, true⟩] false
      (markFollow cfgDefault 1000 ⟨none, 0, 0, 0⟩ "T") "T" = false := by
  decide

/-- C3 (amended): after a follow admission marks target T sticky, a follow
request for a different target is refused while T is visible and the stick
window has not elapsed; a request naming the same T is admitted exactly when
the global follow cooldown no longer blocks (stickiness and the moving check
never refuse the same target). -/
theorem followStickiness (cfg : Behavior) (tmark now : Int) (fs : FollowState)
    (scan : List ScanPlayer) (isMoving : Bool) (tname uname : String)
    (hT : tname ≠ "") (hU : uname ≠ "") (hdiff : tname ≠ uname)
    (hvis : isTargetVisible scan tname = true)
    (hstick : now < (markFollow cfg tmark fs tname).stickUntil)
    (hcd : ¬(cfg.followGlobalCooldownMs.getD 30000 > 0 ∧
      now - (markFollow cfg tmark fs tname).lastAny < cfg.followGlobalCooldownMs.getD 30000)) :
    canFollowTarget cfg now scan isMoving (markFollow cfg tmark fs tname) uname = false ∧
      canFollowTarget cfg now scan isMoving (markFollow cfg tmark fs tname) tname = true := by
  have htgt : (markFollow cfg tmark fs tname).target = some tname := by
    dsimp only [markFollow]
    rw [if_pos (bne_iff_ne.mpr hT)]
  constructor
  · dsimp only [canFollowTarget]
    split
    · rfl
    · rw [if_pos]
      rw [htgt]
      simp only [Bool.and_eq_true, bne_iff_ne, decide_eq_true_eq]
      exact ⟨⟨⟨hU, hdiff⟩, hvis⟩, hstick⟩
  · dsimp only [canFollowTarget]
    rw [if_neg hcd, htgt]
    simp

/-- C3 witness: the amended theorem at a concrete state, 31 seconds past the
follow mark so the global cooldown has elapsed. -/
theorem followStickiness_witness :
    canFollowTarget cfgDefault 31500 [⟨"T", 1, true⟩] false
      (markFollow cfgDefault 1000 ⟨none, 0, 0, 0⟩ "T") "U" = false ∧
      canFollowTarget cfgDefault 31500 [⟨"T", 1, true⟩] false
        (markFollow cfgDefault 1000 ⟨none, 0, 0, 0⟩ "T") "T" = true :=
  followStickiness cfgDefault 1000 31500 ⟨none, 0, 0, 0⟩ [⟨"T", 1, true⟩] false "T" "U"
    (by decide) (by decide) (by decide) (by decide) (by decide) (by decide)

/-- `shouldQueryLLM`: forced queries always pass and stamp the cooldown; with
a non-positive cooldown it passes without stamping; otherwise it passes and
stamps exactly when the cooldown has elapsed. -/
def shouldQueryLLM (cfg : Behavior) (now : Int) (force : Bool) (lastLLMAt : Int) : Bool × Int :=
  let cooldownMs := jsOr cfg.chatCooldown 0
  if force then (true, now)
  else if cooldownMs ≤ 0 then (true, lastLLMAt)
  else if now - lastLLMAt < cooldownMs then (false, lastLLMAt)
  else (true, now)

/-- `shouldAutonomousDecision`: the independent decision-frequency gate. -/
def shouldAutonomousDecision (cfg : Behavior) (now : Int) (lastAt : Int) : Bool × Int :=
  let cooldownMs := jsOr cfg.autonomousDecisionCooldownMs 0
  if cooldownMs ≤ 0 then (true, lastAt)
  else if now - lastAt < cooldownMs then (false, lastAt)
  else (true, now)

/-- The two consecutive gates of `autonomousStep` that guard the reasoning
call: first the raw query gate, then the decision gate; the Bool reports
whether the flow reaches the reasoning backend. -/
def autonomousGates (cfg : Behavior) (now : Int) (lastLLMAt lastDecisionAt : Int) :
    Bool × Int × Int :=
  let q := shouldQueryLLM cfg now false lastLLMAt
  if ¬q.1 then (false, q.2, lastDecisionAt)
  else
    let d := shouldAutonomousDecision cfg now lastDecisionAt
    if ¬d.1 then (false, q.2, d.2)
    else (true, q.2, d.2)

/-- C10 counterexample: with the query cooldown configured non-positive (the
default), `shouldQueryLLM` returns true without updating its timestamp — so
the timestamp is not updated on every true return. -/
theorem shouldQueryLLM_noStampOnZeroCooldown :
    (shouldQueryLLM cfgDefault 5 false 0).1 = true ∧
      (shouldQueryLLM cfgDefault 5 false 0).2 = 0 ∧ (0 : Int) ≠ 5 := by
  decide

/-- C10 (amended): `shouldQueryLLM` stamps its cooldown timestamp to now
whenever it returns true by force or through a positive elapsed cooldown
(with a non-positive configured cooldown it returns true without stamping);
consequently, with both cooldowns positive, a step in which the query gate
passes but the decision gate blocks still consumes the query cooldown while
making no reasoning call. -/
theorem queryCooldownConsumed (cfg : Behavior) (now lastLLMAt lastDecisionAt : Int)
    (hq : jsOr cfg.chatCooldown 0 > 0)
    (hqe : now - lastLLMAt ≥ jsOr cfg.chatCooldown 0)
    (hd : jsOr cfg.autonomousDecisionCooldownMs 0 > 0)
    (hdb : now - lastDecisionAt < jsOr cfg.autonomousDecisionCooldownMs 0) :
    shouldQueryLLM cfg now true lastLLMAt = (true, now) ∧
      shouldQueryLLM cfg now false lastLLMAt = (true, now) ∧
      autonomousGates cfg now lastLLMAt lastDecisionAt = (false, now, lastDecisionAt) := by
  have hpass : shouldQueryLLM cfg now false lastLLMAt = (true, now) := by
    dsimp only [shouldQueryLLM]
    rw [if_neg (Bool.false_ne_true), if_neg (not_le.mpr hq), if_neg (not_lt.mpr hqe)]
  refine ⟨by dsimp only [shouldQueryLLM]; rw [if_pos rfl], hpass, ?_⟩
  dsimp only [autonomousGates]
  rw [hpass]
  have hblock : shouldAutonomousDecision cfg now lastDecisionAt = (false, lastDecisionAt) := by
    dsimp only [shouldAutonomousDecision]
    rw [if_neg (not_le.mpr hd), if_pos hdb]
  rw [hblock]
  simp

/-- C10 witness: cooldowns of 10ms each, query elapsed, decision blocked. -/
theorem queryCooldownConsumed_witness :
    autonomousGates
      { cfgDefault with chatCooldown := some 10, autonomousDecisionCooldownMs := some 10 }
      20 0 15 = (false, 20, 15) :=
  (queryCooldownConsumed
    { cfgDefault with chatCooldown := some 10, autonomousDecisionCooldownMs := some 10 }
    20 0 15 (by decide) (by decide) (by decide) (by decide)).2.2

/-! ## Planner social rotation (src/planner.js) -/

/-- Social-rotation state of the planner (the per-player last-spoke map is
passed separately, as `lastSpoke`). -/
structure SocialState where
  lastSocialChatAt : Int
  socialIndex : Nat
  deriving DecidableEq, Repr

/-- `canAddressPlayer`: non-muted and past the per-player chat cooldown. -/
def canAddressPlayer (cfg : Behavior) (now : Int) (muted : String → Bool)
    (lastSpoke : String → Int) (name : String) : Bool :=
  if name == "" then false
  else if muted name then false
  else
    let cooldownMs := jsOr cfg.perPlayerChatCooldown 0
    if cooldownMs ≤ 0 then true
    else decide (now - lastSpoke name ≥ cooldownMs)

/-- The candidate pipeline of `getSocialTarget`: named non-self players, with
an entity, within the social distance, addressable right now. -/
def eligiblePlayers (cfg : Behavior) (now : Int) (muted : String → Bool)
    (lastSpoke : String → Int) (botName : String) (players : List ScanPlayer) :
    List ScanPlayer :=
  let maxDistance := cfg.socialMaxDistance.getD 32
  let candidates :=
    (players.filter (fun p => p.name != "" && p.name != botName)).filter
      (fun p => p.hasEntity && decide (p.distance ≤ maxDistance))
  candidates.filter (fun p => canAddressPlayer cfg now muted lastSpoke p.name)

/-- The comparator of the social sort (`a.name.localeCompare(b.name)`). -/
def nameLe (a b : ScanPlayer) : Bool := decide (a.name ≤ b.name)

/-- `getSocialTarget`: gate on the round interval, sort the eligible
candidates by name, and pick `ordered[socialIndex % ordered.length]`. -/
def getSocialTarget (cfg : Behavior) (now : Int) (muted : String → Bool)
    (lastSpoke : String → Int) (botName : String) (st : SocialState)
    (players : List ScanPlayer) : Option ScanPlayer :=
  let intervalMs := jsOr cfg.socialRoundInterval 0
  if intervalMs ≤ 0 then none
  else if now - st.lastSocialChatAt < intervalMs then none
  else
    let eligible := eligiblePlayers cfg now muted lastSpoke botName players
    if eligible.length = 0 then none
    else
      let ordered := eligible.mergeSort nameLe
      ordered[st.socialIndex % ordered.length]?

/-- `markSocialSpoke`: stamp the round and advance the cursor. -/
def markSocialSpoke (now : Int) (st : SocialState) : SocialState :=
  { lastSocialChatAt := now, socialIndex := st.socialIndex + 1 }

/-- `markPlayerSpoke`: record the per-player cooldown timestamp. -/
def markPlayerSpoke (now : Int) (m : List (String × Int)) (name : String) :
    List (String × Int) :=
  if name == "" then m else mapSet m name now

/-- The social-rotation trace: state after `k` successful rotations, the
`k`-th stamped at time `t k`. -/
def rotStates (st0 : SocialState) (t : Nat → Int) : Nat → SocialState
  | 0 => st0
  | k + 1 => markSocialSpoke (t k) (rotStates st0 t k)

/-- The cursor advances by exactly one per successful rotation. -/
theorem rotStates_socialIndex (st0 : SocialState) (t : Nat → Int) (k : Nat) :
    (rotStates st0 t k).socialIndex = st0.socialIndex + k := by
  induction k with
  | zero => rfl
  | succ k ih => simp only [rotStates, markSocialSpoke, ih]; omega

/-- Under a passing round gate and a fixed eligible set, one rotation selects
the sorted candidate at the cursor position. -/
theorem getSocialTarget_eq (cfg : Behavior) (now : Int) (muted : String → Bool)
    (lastSpoke : String → Int) (botName : String) (st : SocialState)
    (players : List ScanPlayer) (E : List ScanPlayer)
    (hint : jsOr cfg.socialRoundInterval 0 > 0)
    (hgate : now - st.lastSocialChatAt ≥ jsOr cfg.socialRoundInterval 0)
    (hE : eligiblePlayers cfg now muted lastSpoke botName players = E)
    (hne : E ≠ []) :
    getSocialTarget cfg now muted lastSpoke botName st players =
      (E.mergeSort nameLe)[st.socialIndex % E.length]? := by
  dsimp only [getSocialTarget]
  rw [if_neg (not_le.mpr hint), if_neg (not_lt.mpr hgate), hE,
    if_neg (fun h => hne (List.length_eq_zero.mp h)), List.length_mergeSort]

/-- C4: if the eligible candidate pipeline stays fixed at the nodup list `E`
across `E.length` consecutive successful rotations — each gate passing, each
rotation advancing the cursor by one via `markSocialSpoke` — then the selected
targets are exactly the name-sorted candidates traversed cyclically from the
cursor, and every candidate occurs in that traversal exactly once. -/
theorem socialRoundRobinFair (cfg : Behavior) (muted : String → Bool)
    (lastSpoke : String → Int) (botName : String) (players : List ScanPlayer)
    (st0 : SocialState) (t : Nat → Int) (E : List ScanPlayer)
    (hint : jsOr cfg.socialRoundInterval 0 > 0)
    (hE : ∀ k : Fin E.length,
      eligiblePlayers cfg (t k.val) muted lastSpoke botName players = E)
    (hgate : ∀ k : Fin E.length,
      t k.val - (rotStates st0 t k.val).lastSocialChatAt ≥ jsOr cfg.socialRoundInterval 0)
    (hne : E ≠ []) (hnd : E.Nodup) :
    ((List.range E.length).map (fun k =>
        getSocialTarget cfg (t k) muted lastSpoke botName (rotStates st0 t k) players) =
      ((E.mergeSort nameLe).rotate (st0.socialIndex % E.length)).map some) ∧
    ∀ p ∈ E, ((E.mergeSort nameLe).rotate (st0.socialIndex % E.length)).count p = 1 := by
  set N := E.length with hN
  set c := st0.socialIndex with hc
  set ordered := E.mergeSort nameLe with hord
  have hlen : ordered.length = N := List.length_mergeSort E
  have hperm : ordered.Perm E := List.mergeSort_perm E nameLe
  have hordnd : ordered.Nodup := hperm.nodup_iff.mpr hnd
  have hNpos : 0 < N := List.length_pos.mpr hne
  have hsel : ∀ i : Nat, i < N → getSocialTarget cfg (t i) muted lastSpoke botName
      (rotStates st0 t i) players = ordered[(c + i) % N]? := by
    intro i hi
    rw [getSocialTarget_eq cfg (t i) muted lastSpoke botName _ players E hint
      (hgate ⟨i, hi⟩) (hE ⟨i, hi⟩) hne, rotStates_socialIndex]
  constructor
  · apply List.ext_getElem
    · simp [hlen]
    · intro i h₁ h₂
      have hiN : i < N := by simpa using h₁
      rw [List.getElem_map, List.getElem_map]
      simp only [List.getElem_range]
      rw [hsel i hiN]
      have hidx : (c + i) % N < ordered.length := by
        rw [hlen]
        exact Nat.mod_lt _ hNpos
      rw [List.getElem?_eq_getElem hidx, List.getElem_rotate]
      have hmod : (c + i) % N = (i + c % N) % ordered.length := by
        rw [hlen]
        conv_rhs => rw [Nat.add_mod, Nat.mod_mod_of_dvd c dvd_rfl, ← Nat.add_mod]
        rw [Nat.add_comm]
      simp only [hmod]
  · intro p hp
    have hpord : p ∈ ordered := (List.mem_mergeSort).mpr hp
    rw [(ordered.rotate_perm (c % N)).count_eq p]
    exact List.count_eq_one_of_mem hordnd hpord

/-- Concrete configuration for the rotation witness: a one-second round
interval. -/
def cfgSocial : Behavior := { cfgDefault with socialRoundInterval := some 1000 }

/-- Two nearby visible players for the rotation witness. -/
def playersW : List ScanPlayer := [⟨"bob", 5, true⟩, ⟨"alice", 3, true⟩]

/-- Rotation times for the witness: one per second. -/
def tW (k : Nat) : Int := 1000 * ((k : Int) + 1)

/-- C4 witness: with two fixed eligible players, two consecutive successful
rotations select "alice" exactly once. -/
theorem socialRoundRobinFair_witness :
    ((playersW.mergeSort nameLe).rotate
      ((0 : Nat) % playersW.length)).count ⟨"alice", 3, true⟩ = 1 :=
  (socialRoundRobinFair cfgSocial (fun _ => false) (fun _ => 0) "bot" playersW
    ⟨0, 0⟩ tW playersW (by decide) (by decide) (by decide) (by decide) (by decide)).2
    ⟨"alice", 3, true⟩ (by decide)

/-! ## Decision dispatch and the social turn (src/planner.js autonomousStep /
executeDecision) -/

/-- One action proposed by the reasoning backend. -/
structure DecisionAction where
  name : String
  args : List (String × String)
  deriving DecidableEq, Repr

/-- The validated decision shape returned by the reasoning backend. -/
structure Decision where
  thought : Option String
  chat : Option String
  actions : List DecisionAction
  deriving DecidableEq, Repr

/-- The solo-mode line of `autonomousStep`: `if (soloMode) decision.chat = null`. -/
def applySoloMute (soloMode : Bool) (d : Decision) : Decision :=
  if soloMode then { d with chat := none } else d

/-- The chat half of `executeDecision`: a present chat text goes through the
throttle's `enqueue`; on rejection the reported chat text becomes null. -/
def executeDecisionChat (cfg : Behavior) (now : Int) (nearby : Nat) (rand : ℚ)
    (speech : SpeechState) (chat : Option String) (reason : Reason)
    (player : Option String) : Option String × SpeechState :=
  match chat with
  | none => (none, speech)
  | some c =>
    let r := enqueue cfg now nearby rand speech c reason player
    (if r.1 then some c else none, r.2)

/-- `executeDecision` as observed by the caller: the reported chat text, the
throttle state, and the action list handed in order to the dispatch loop. -/
def executeDecisionModel (cfg : Behavior) (now : Int) (nearby : Nat) (rand : ℚ)
    (speech : SpeechState) (d : Decision) (reason : Reason) (player : Option String) :
    Option String × SpeechState × List DecisionAction :=
  let chatRes := executeDecisionChat cfg now nearby rand speech d.chat reason player
  (chatRes.1, chatRes.2, d.actions)

/-- C9: in a solo autonomous step the decision's chat is nulled before
dispatch, so nothing is offered to the throttle (its state is untouched and
no chat text is reported), while the decision's actions are dispatched
unchanged. -/
theorem soloChatDiscarded (cfg : Behavior) (now : Int) (nearby : Nat) (rand : ℚ)
    (speech : SpeechState) (d : Decision) (reason : Reason) (player : Option String) :
    (executeDecisionModel cfg now nearby rand speech (applySoloMute true d) reason player).1
        = none ∧
      (executeDecisionModel cfg now nearby rand speech (applySoloMute true d) reason player).2.1
        = speech ∧
      (executeDecisionModel cfg now nearby rand speech (applySoloMute true d) reason player).2.2
        = d.actions := by
  exact ⟨rfl, rfl, rfl⟩

/-- JS `haystack.includes(needle)` on character lists. -/
def isInfixOfChars (needle : List Char) : List Char → Bool
  | [] => needle.isEmpty
  | c :: rest => needle.isPrefixOf (c :: rest) || isInfixOfChars needle rest

/-- The name-prefixing of a social chat: if the lowercased chat does not
already contain the target's lowercased name, prepend it. -/
def prefixChat (targetName c : String) : String :=
  if isInfixOfChars (targetName.data.map Char.toLower) (c.data.map Char.toLower) then c
  else targetName ++ ", " ++ c

/-- Outcome of the social-turn tail of `autonomousStep`. -/
structure SocialTurnResult where
  social : SocialState
  lastSpokeAt : List (String × Int)
  speech : SpeechState
  chatText : Option String
  deriving Repr

/-- The social-turn tail of `autonomousStep`: mark `usedSocial` and prefix the
target's name when the decision carries a chat, dispatch the chat through
`executeDecision`, and consume the social turn (`markSocialSpoke`,
`markPlayerSpoke`) only when a chat text actually went out. -/
def autonomousSocialTurn (cfg : Behavior) (now : Int) (nearby : Nat) (rand : ℚ)
    (speech : SpeechState) (social : SocialState) (lastSpokeAtMap : List (String × Int))
    (socialTarget : Option ScanPlayer) (decisionChat : Option String) : SocialTurnResult :=
  let step1 : Bool × Option String :=
    match socialTarget, decisionChat with
    | some tgt, some c =>
      if c == "" then (false, decisionChat)
      else (true, some (prefixChat tgt.name c))
    | _, _ => (false, decisionChat)
  let player := socialTarget.map (fun tgt => tgt.name)
  let exec := executeDecisionChat cfg now nearby rand speech step1.2 Reason.autonomous player
  let chatTruthy :=
    match exec.1 with
    | some s => s != ""
    | none => false
  if step1.1 && chatTruthy && socialTarget.isSome then
    match socialTarget with
    | some tgt =>
      ⟨markSocialSpoke now social, markPlayerSpoke now lastSpokeAtMap tgt.name, exec.2, exec.1⟩
    | none => ⟨social, lastSpokeAtMap, exec.2, exec.1⟩
  else ⟨social, lastSpokeAtMap, exec.2, exec.1⟩

/-- An empty candidate is never admitted. -/
theorem shouldAllow_empty (cfg : Behavior) (now : Int) (nearby : Nat) (rand : ℚ)
    (st : SpeechState) (reason : Reason) (player : Option String) :
    (shouldAllow cfg now nearby rand st reason "" player).1 = false := by
  rfl

/-- C7: with a selected social target and a non-empty decision chat, the
social turn is consumed — cursor advanced, round stamped, per-player
last-spoke recorded — exactly when the throttle accepts the prefixed
utterance; on rejection all three are left unchanged. -/
theorem socialTurnOnlyOnAccept (cfg : Behavior) (now : Int) (nearby : Nat) (rand : ℚ)
    (speech : SpeechState) (social : SocialState) (lastSpokeAtMap : List (String × Int))
    (tgt : ScanPlayer) (c : String) (hc : c ≠ "") :
    ((enqueue cfg now nearby rand speech (prefixChat tgt.name c) .autonomous
        (some tgt.name)).1 = false →
      (autonomousSocialTurn cfg now nearby rand speech social lastSpokeAtMap
          (some tgt) (some c)).social = social ∧
        (autonomousSocialTurn cfg now nearby rand speech social lastSpokeAtMap
          (some tgt) (some c)).lastSpokeAt = lastSpokeAtMap) ∧
    ((enqueue cfg now nearby rand speech (prefixChat tgt.name c) .autonomous
        (some tgt.name)).1 = true →
      (autonomousSocialTurn cfg now nearby rand speech social lastSpokeAtMap
          (some tgt) (some c)).social = markSocialSpoke now social ∧
        (autonomousSocialTurn cfg now nearby rand speech social lastSpokeAtMap
          (some tgt) (some c)).lastSpokeAt = markPlayerSpoke now lastSpokeAtMap tgt.name) := by
  have hc' : (c == "") = false := beq_eq_false_iff_ne.mpr hc
  constructor
  · intro hrej
    dsimp only [autonomousSocialTurn, executeDecisionChat, Option.map]
    rw [hc']
    simp only [Bool.false_eq_true, if_false, enqueue] at hrej ⊢
    simp [hrej]
  · intro hacc
    have htext : (prefixChat tgt.name c == "") = false := by
      by_cases h : (prefixChat tgt.name c == "") = true
      · exfalso
        have hempty : prefixChat tgt.name c = "" := by simpa using h
        rw [hempty] at hacc
        rw [show (enqueue cfg now nearby rand speech "" .autonomous (some tgt.name)).1 = false
          from shouldAllow_empty cfg now nearby rand speech .autonomous (some tgt.name)] at hacc
        exact Bool.false_ne_true hacc
      · exact eq_false_of_ne_true h
    dsimp only [autonomousSocialTurn, executeDecisionChat, Option.map]
    rw [hc']
    have htext' : prefixChat tgt.name c ≠ "" := by simpa using htext
    simp only [Bool.false_eq_true, if_false, enqueue] at hacc ⊢
    simp [hacc, htext, htext']

/-- C7 witness: with the burst window already full, the enqueue of
"bob, privet" is rejected and the social turn is not consumed. -/
theorem socialTurnOnlyOnAccept_witness :
    (autonomousSocialTurn cfgDefault 0 0 0 stBurst ⟨0, 0⟩ []
        (some ⟨"bob", 1, true⟩) (some "privet")).social = (⟨0, 0⟩ : SocialState) ∧
      (autonomousSocialTurn cfgDefault 0 0 0 stBurst ⟨0, 0⟩ []
        (some ⟨"bob", 1, true⟩) (some "privet")).lastSpokeAt = [] :=
  (socialTurnOnlyOnAccept cfgDefault 0 0 0 stBurst ⟨0, 0⟩ [] ⟨"bob", 1, true⟩ "privet"
    (by decide)).1 (by decide)

end AiBot
